import Mathlib

/-!
Shallow embedding of `src/actor.rs` (crate `stio`): a mio-based reactor with
a token registry (`Registry`), an actor owning the registry and the OS poll
handle (`Actor`), and a poll/dispatch loop (`Actor::wait_all_events`).

Modelling conventions:
  - `usize` arithmetic is `Nat` arithmetic modulo `2 ^ 64` (release-mode
    wrapping of `self.next_token += 1`).
  - `HashMap<Token, EventInfo>` is an association list `List (Nat × EventInfo)`;
    `mapLookup`/`mapRemove` mirror `HashMap::get`/`HashMap::remove` on lists
    whose keys are distinct (the HashMap invariant).
  - The OS polling primitive is a black box: each `EventInfo` carries the
    outcome the OS would return for its register/deregister call
    (`none` = success, `some e` = failure), and `wait_all_events` takes the
    list of ready events the OS poll reported as a parameter.
  - Waker invocations are observable: dispatch returns the list of waker
    identifiers invoked, in order.
  - Operations also return a trace of OS-call and map-mutation steps, used to
    state the ordering of the OS-level call relative to the Registry update.
  - The registry `Mutex` serializes all access; the model passes the state
    explicitly, which is faithful for the externally-serialized executions
    the claims range over.
-/

/-- Size of the `usize` value space (64-bit target). -/
def USIZE_SIZE : Nat := 2 ^ 64

/-- Maximum representable `usize` value, `usize::max_value()`. -/
def USIZE_MAX : Nat := USIZE_SIZE - 1

/-- An OS-level I/O error (`std::io::Error`), identified by a code. -/
structure IOErr where
  code : Nat
deriving DecidableEq

/-- The `Event` enum of `actor.rs`: one externally-owned pollable resource per
variant. The unix-only `EventedFd` variant is behind `cfg(target_os = "unix")`
and is omitted; payloads are abstracted to identifiers since the reactor never
inspects them beyond delegating register/deregister. -/
inductive Event where
  | tcpListener (id : Nat)
  | tcpStream (id : Nat)
  | udpSocket (id : Nat)
  | registration (id : Nat)
deriving DecidableEq

/-- The `EventInfo` struct: an event source plus a read-direction and a
write-direction waker. Wakers are modelled by identifiers; the outcome of the
OS-level `register`/`deregister` call for this event is carried as data
(`none` = `Ok(())`, `some e` = `Err(e)`), abstracting the black-box OS poll. -/
structure EventInfo where
  ev : Event
  readWaker : Nat
  writeWaker : Nat
  osRegisterResult : Option IOErr
  osDeregisterResult : Option IOErr
deriving DecidableEq

/-- Lookup in the token map, mirroring `HashMap::get` on an association list. -/
def mapLookup : List (Nat × EventInfo) → Nat → Option EventInfo
  | [], _ => none
  | (k, v) :: rest, t => if k = t then some v else mapLookup rest t

/-- Removal from the token map, mirroring `HashMap::remove`: drops the entry
for the key (the first one; keys are distinct in a `HashMap`). -/
def mapRemove : List (Nat × EventInfo) → Nat → List (Nat × EventInfo)
  | [], _ => []
  | (k, v) :: rest, t => if k = t then rest else (k, v) :: mapRemove rest t

/-- The `Registry` struct: the next-token counter and the token map. -/
structure Registry where
  next_token : Nat
  map : List (Nat × EventInfo)
deriving DecidableEq

/-- Events of the execution trace: OS-level calls and Registry map mutations,
in the order the code performs them. -/
inductive TraceEv where
  | osRegister (t : Nat)
  | mapInsert (t : Nat)
  | mapRemove (t : Nat)
  | osDeregister (t : Nat)
deriving DecidableEq

/-- The `Registry::new` constructor. -/
def Registry.new : Registry := { next_token := 0, map := [] }

/-- Well-formedness of a `Registry` state that the Rust types and the
`HashMap` invariant guarantee: the counter is a `usize` value and the map keys
are pairwise distinct. -/
def Registry.WF (r : Registry) : Prop :=
  r.next_token < USIZE_SIZE ∧ (r.map.map Prod.fst).Nodup

instance (r : Registry) : Decidable r.WF := by
  unfold Registry.WF; infer_instance

/-- The loop body of `Registry::register` (actor.rs lines 70-89), indexed by
fuel since the Rust `loop` retries unboundedly: take `v = next_token`,
increment the counter (wrapping), skip `usize::max_value()`, retry on
collision with an occupied entry, and otherwise perform the OS-level register
call and insert the mapping. Note that the source discards the `IOResult` of
`ev_info.register(poll, token)` (line 83): the call happens (it is recorded in
the trace) but its outcome is never consulted, so the model likewise ignores
`osRegisterResult` here. Returns `none` when the fuel runs out, i.e. when the
loop would still be spinning after `fuel` iterations. -/
def Registry.registerLoop : Nat → Registry → EventInfo →
    Option (Nat × Registry × List TraceEv)
  | 0, _, _ => none
  | fuel + 1, r, ev_info =>
    if r.next_token = USIZE_MAX then
      Registry.registerLoop fuel
        { r with next_token := (r.next_token + 1) % USIZE_SIZE } ev_info
    else
      match mapLookup r.map r.next_token with
      | some _ =>
        Registry.registerLoop fuel
          { r with next_token := (r.next_token + 1) % USIZE_SIZE } ev_info
      | none =>
        some (r.next_token,
          { next_token := (r.next_token + 1) % USIZE_SIZE,
            map := (r.next_token, ev_info) :: r.map },
          [TraceEv.osRegister r.next_token, TraceEv.mapInsert r.next_token])

/-- The `Registry::remove` method: `self.map.remove(&token)`, returning the
removed entry (if any) together with the updated registry state. -/
def Registry.remove (r : Registry) (t : Nat) : Option EventInfo × Registry :=
  (mapLookup r.map t, { r with map := mapRemove r.map t })

/-- The `Actor` struct: the mutex-protected registry. The `mio::Poll` handle
is a black box and carries no model state of its own. -/
structure Actor where
  registry : Registry
deriving DecidableEq

/-- The state an `Actor::new()` call produces (a fresh poll and registry). -/
def Actor.new : Actor := { registry := Registry.new }

/-- The `Actor::register` method: lock the registry, delegate to
`Registry::register`, and return `Ok(token)` unconditionally (the source never
constructs the error variant). `none` propagates fuel exhaustion of the inner
loop. -/
def Actor.register (a : Actor) (ev_info : EventInfo) (fuel : Nat) :
    Option (Except IOErr Nat × Actor × List TraceEv) :=
  match Registry.registerLoop fuel a.registry ev_info with
  | none => none
  | some (token, r1, tr) => some (Except.ok token, { registry := r1 }, tr)

/-- The `Actor::deregister` method: lock the registry, remove the entry; if it
was present, perform the OS-level deregister for it (propagating its error
with `?`) and return `Ok(true)`, otherwise return `Ok(false)`. The removal is
not rolled back when the OS-level call fails. -/
def Actor.deregister (a : Actor) (t : Nat) :
    Except IOErr Bool × Actor × List TraceEv :=
  match Registry.remove a.registry t with
  | (some v, r1) =>
    match v.osDeregisterResult with
    | some e =>
      (Except.error e, { registry := r1 },
        [TraceEv.mapRemove t, TraceEv.osDeregister t])
    | none =>
      (Except.ok true, { registry := r1 },
        [TraceEv.mapRemove t, TraceEv.osDeregister t])
  | (none, r1) => (Except.ok false, { registry := r1 }, [TraceEv.mapRemove t])

/-- One ready event as reported by the OS poll: its token and its readiness
directions. -/
structure OsEvent where
  token : Nat
  readable : Bool
  writable : Bool
deriving DecidableEq

/-- The dispatch loop of `Actor::wait_all_events` (actor.rs lines 136-153):
for each reported event, look up its token; unknown tokens are skipped via
`continue` (which also skips the `ret += 1`); for known tokens, wake the read
waker if readable, the write waker if writable, and count the event once.
Returns the count and the invoked waker identifiers in order. -/
def dispatchEvents (r : Registry) : List OsEvent → Nat × List Nat
  | [] => (0, [])
  | e :: rest =>
    match mapLookup r.map e.token with
    | none => dispatchEvents r rest
    | some v =>
      ((dispatchEvents r rest).1 + 1,
        ((if e.readable then [v.readWaker] else []) ++
          (if e.writable then [v.writeWaker] else [])) ++
          (dispatchEvents r rest).2)

/-- The `Actor::wait_all_events` method: poll the OS (the poll outcome — an
error, or the batch of ready events, at most the 1024-event capacity — is the
parameter `pollResult`); a poll error aborts the call with that error and no
waker is invoked; otherwise dispatch every reported event under the registry
lock and return the count. -/
def Actor.wait_all_events (a : Actor) (pollResult : Except IOErr (List OsEvent)) :
    Except IOErr Nat × List Nat :=
  match pollResult with
  | Except.error e => (Except.error e, [])
  | Except.ok events =>
    ((Except.ok (dispatchEvents a.registry events).1),
      (dispatchEvents a.registry events).2)

/-- A sequence of `register` calls with no interleaved `deregister`, returning
the issued tokens in order and the final registry state; `none` if any call
exhausts its fuel. -/
def registerSeq (fuel : Nat) : Registry → List EventInfo →
    Option (List Nat × Registry)
  | r, [] => some ([], r)
  | r, ev_info :: rest =>
    match Registry.registerLoop fuel r ev_info with
    | none => none
    | some (t, r1, _) =>
      match registerSeq fuel r1 rest with
      | none => none
      | some (ts, r2) => some (t :: ts, r2)

/-! ### Basic lemmas about the association-list map -/

/-- Lookup fails exactly on keys absent from the map. -/
theorem mapLookup_eq_none_iff (m : List (Nat × EventInfo)) (t : Nat) :
    mapLookup m t = none ↔ t ∉ m.map Prod.fst := by
  induction m with
  | nil => simp [mapLookup]
  | cons p rest ih =>
    obtain ⟨k, v⟩ := p
    by_cases hk : k = t
    · simp [mapLookup, hk]
    · simp [mapLookup, hk, ih, Ne.symm hk]

/-- Removing a key with distinct keys makes its lookup fail. -/
theorem mapLookup_mapRemove_self (m : List (Nat × EventInfo)) (t : Nat)
    (h : (m.map Prod.fst).Nodup) : mapLookup (mapRemove m t) t = none := by
  induction m with
  | nil => simp [mapRemove, mapLookup]
  | cons p rest ih =>
    obtain ⟨k, v⟩ := p
    simp only [List.map_cons, List.nodup_cons] at h
    by_cases hk : k = t
    · subst hk
      simp only [mapRemove, if_pos rfl]
      exact (mapLookup_eq_none_iff rest k).2 h.1
    · simp only [mapRemove, if_neg hk, mapLookup, if_neg hk]
      exact ih h.2

/-- Removing one key leaves the lookup of every other key unchanged. -/
theorem mapLookup_mapRemove_ne (m : List (Nat × EventInfo)) (t k : Nat)
    (h : k ≠ t) : mapLookup (mapRemove m t) k = mapLookup m k := by
  induction m with
  | nil => simp [mapRemove]
  | cons p rest ih =>
    obtain ⟨a, v⟩ := p
    by_cases ha : a = t
    · subst ha
      simp [mapRemove, mapLookup, Ne.symm h]
    · simp only [mapRemove, if_neg ha, mapLookup]
      rw [ih]

/-! ### The register loop -/

/-- Characterization of a terminating `Registry::register` call: the returned
token was free in the incoming map, the map grows by exactly that entry, the
reserved sentinel is never returned, the trace is the OS call followed by the
insertion, the counter ends just past the token (wrapping), and the token is a
`usize` value whenever the incoming counter is. -/
theorem registerLoop_spec (fuel : Nat) (r : Registry) (ev_info : EventInfo)
    (t : Nat) (r' : Registry) (tr : List TraceEv)
    (h : Registry.registerLoop fuel r ev_info = some (t, r', tr)) :
    mapLookup r.map t = none ∧
    r'.map = (t, ev_info) :: r.map ∧
    t ≠ USIZE_MAX ∧
    tr = [TraceEv.osRegister t, TraceEv.mapInsert t] ∧
    r'.next_token = (t + 1) % USIZE_SIZE ∧
    (r.next_token < USIZE_SIZE → t < USIZE_SIZE) := by
  induction fuel generalizing r with
  | zero => simp [Registry.registerLoop] at h
  | succ n ih =>
    rw [Registry.registerLoop] at h
    split at h
    · have hrec := ih _ h
      exact ⟨hrec.1, hrec.2.1, hrec.2.2.1, hrec.2.2.2.1, hrec.2.2.2.2.1,
        fun _ => hrec.2.2.2.2.2 (Nat.mod_lt _ (by decide))⟩
    · split at h
      · have hrec := ih _ h
        exact ⟨hrec.1, hrec.2.1, hrec.2.2.1, hrec.2.2.2.1, hrec.2.2.2.2.1,
          fun _ => hrec.2.2.2.2.2 (Nat.mod_lt _ (by decide))⟩
      · rename_i hmax x heq
        simp only [Option.some.injEq, Prod.mk.injEq] at h
        obtain ⟨ht, hr, htr⟩ := h
        subst ht
        refine ⟨heq, ?_, hmax, htr.symm, ?_, fun hlt => hlt⟩
        · rw [← hr]
        · rw [← hr]

/-- Characterization of a register-only call sequence: the issued tokens are
pairwise distinct, entries present before are still present (and unchanged)
after, every issued token was absent from the map at the start, and every
issued token is live in the final map. -/
theorem registerSeq_spec (fuel : Nat) (evs : List EventInfo) :
    ∀ r ts r2, registerSeq fuel r evs = some (ts, r2) →
      ts.Nodup ∧
      (∀ k v, mapLookup r.map k = some v → mapLookup r2.map k = some v) ∧
      (∀ k v, mapLookup r.map k = some v → k ∉ ts) ∧
      (∀ t0, t0 ∈ ts → ∃ v, mapLookup r2.map t0 = some v) := by
  induction evs with
  | nil =>
    intro r ts r2 h
    simp only [registerSeq, Option.some.injEq, Prod.mk.injEq] at h
    obtain ⟨hts, hr⟩ := h
    subst hts; subst hr
    exact ⟨List.nodup_nil, fun k v hv => hv,
      fun k v _ => List.not_mem_nil k,
      fun t0 ht0 => absurd ht0 (List.not_mem_nil t0)⟩
  | cons e rest ih =>
    intro r ts r2 h
    rw [registerSeq] at h
    split at h
    · exact absurd h (by simp)
    · rename_i t r1 tr1 heq1
      split at h
      · exact absurd h (by simp)
      · rename_i ts1 r2x heq2
        simp only [Option.some.injEq, Prod.mk.injEq] at h
        obtain ⟨hts, hr2⟩ := h
        subst hts; subst hr2
        obtain ⟨hlk, hmap, -, -, -, -⟩ := registerLoop_spec fuel r e t r1 tr1 heq1
        obtain ⟨ihnd, ihpres, ihfresh, ihmem⟩ := ih r1 ts1 r2x heq2
        have h_t_in_r1 : mapLookup r1.map t = some e := by
          rw [hmap]; simp [mapLookup]
        have pres_step : ∀ k v, mapLookup r.map k = some v →
            mapLookup r1.map k = some v := by
          intro k v hv
          rw [hmap]
          by_cases hkt : t = k
          · subst hkt; rw [hlk] at hv; exact absurd hv (by simp)
          · simpa [mapLookup, hkt] using hv
        refine ⟨List.nodup_cons.mpr ⟨ihfresh t e h_t_in_r1, ihnd⟩,
          fun k v hv => ihpres k v (pres_step k v hv), ?_, ?_⟩
        · intro k v hv
          have hkt : k ≠ t := by
            intro hk; subst hk; rw [hlk] at hv; exact absurd hv (by simp)
          simp only [List.mem_cons, not_or]
          exact ⟨hkt, ihfresh k v (pres_step k v hv)⟩
        · intro t0 ht0
          rcases List.mem_cons.mp ht0 with h0 | h0
          · subst h0; exact ⟨e, ihpres t0 e h_t_in_r1⟩
          · exact ihmem t0 h0

/-! ### Concrete inputs used by witnesses and counterexamples -/

/-- A sample event whose OS-level calls both succeed. -/
def evSampleA : EventInfo :=
  { ev := Event.tcpListener 0, readWaker := 0, writeWaker := 1,
    osRegisterResult := none, osDeregisterResult := none }

/-- A second sample event whose OS-level calls both succeed. -/
def evSampleB : EventInfo :=
  { ev := Event.tcpStream 1, readWaker := 2, writeWaker := 3,
    osRegisterResult := none, osDeregisterResult := none }

/-- A sample event whose OS-level register call fails. -/
def evRegisterFails : EventInfo :=
  { ev := Event.udpSocket 2, readWaker := 4, writeWaker := 5,
    osRegisterResult := some { code := 1 }, osDeregisterResult := none }

/-- A sample event whose OS-level deregister call fails. -/
def evDeregisterFails : EventInfo :=
  { ev := Event.registration 3, readWaker := 6, writeWaker := 7,
    osRegisterResult := none, osDeregisterResult := some { code := 2 } }

/-! ### Claims -/

/-- C1: evaluation of the code at the failing input. Registering an event
whose OS-level register call fails (`osRegisterResult = some e`) nevertheless
returns `Ok(0)` and inserts the token→event mapping: the source discards the
`IOResult` of `ev_info.register(poll, token)` (actor.rs line 83), so the
error propagation and rollback behavior the claim describes do not
happen, even though `Actor::register` returns `IOResult<Token>`. -/
theorem C1_register_swallows_os_error :
    evRegisterFails.osRegisterResult = some { code := 1 } ∧
    Actor.register Actor.new evRegisterFails 1 =
      some (Except.ok 0,
        { registry := { next_token := 1, map := [(0, evRegisterFails)] } },
        [TraceEv.osRegister 0, TraceEv.mapInsert 0]) :=
  ⟨rfl, rfl⟩

/-- C3: tokens issued by a register-only call sequence are pairwise distinct;
a terminating register call returns a token that is not currently in the map
(a live token is never reissued), and it preserves distinctness of the keys
of the map (each token stays unique among currently-registered events). -/
theorem C3_token_uniqueness :
    (∀ fuel r evs ts r2, registerSeq fuel r evs = some (ts, r2) → ts.Nodup) ∧
    (∀ fuel r ev_info t r' tr,
        Registry.registerLoop fuel r ev_info = some (t, r', tr) →
        mapLookup r.map t = none ∧
        ((r.map.map Prod.fst).Nodup → (r'.map.map Prod.fst).Nodup)) := by
  constructor
  · intro fuel r evs ts r2 h
    exact (registerSeq_spec fuel evs r ts r2 h).1
  · intro fuel r ev_info t r' tr h
    obtain ⟨hlk, hmap, -, -, -, -⟩ := registerLoop_spec fuel r ev_info t r' tr h
    refine ⟨hlk, fun hnd => ?_⟩
    rw [hmap]
    simp only [List.map_cons, List.nodup_cons]
    exact ⟨(mapLookup_eq_none_iff r.map t).1 hlk, hnd⟩

/-- Witness for C3 at a concrete input: registering two events on a fresh
registry issues the distinct tokens 0 and 1, and token 0 was free before. -/
theorem C3_witness :
    ([0, 1] : List Nat).Nodup ∧ mapLookup Registry.new.map 0 = none :=
  ⟨C3_token_uniqueness.1 1 Registry.new [evSampleA, evSampleB] [0, 1]
      { next_token := 2, map := [(1, evSampleB), (0, evSampleA)] } (by decide),
    (C3_token_uniqueness.2 1 Registry.new evSampleA 0
      { next_token := 1, map := [(0, evSampleA)] }
      [TraceEv.osRegister 0, TraceEv.mapInsert 0] (by decide)).1⟩

/-- C7: a terminating `Registry::register` call never issues the reserved
maximum representable token value: the returned token is strictly below
`usize::max_value()` (the counter being a `usize` value, as its Rust type
guarantees). -/
theorem C7_sentinel_never_issued (fuel : Nat) (r : Registry)
    (ev_info : EventInfo) (t : Nat) (r' : Registry) (tr : List TraceEv)
    (hlt : r.next_token < USIZE_SIZE)
    (h : Registry.registerLoop fuel r ev_info = some (t, r', tr)) :
    t < USIZE_MAX := by
  obtain ⟨-, -, hne, -, -, hsz⟩ := registerLoop_spec fuel r ev_info t r' tr h
  have h1 : t < USIZE_SIZE := hsz hlt
  have h2 : USIZE_SIZE = USIZE_MAX + 1 := by decide
  omega

/-- Witness for C7 at a concrete input: the token issued on a fresh registry
is 0, strictly below the sentinel. -/
theorem C7_witness : (0 : Nat) < USIZE_MAX :=
  C7_sentinel_never_issued 1 Registry.new evSampleA 0
    { next_token := 1, map := [(0, evSampleA)] }
    [TraceEv.osRegister 0, TraceEv.mapInsert 0] (by decide) (by decide)

/-- C9: `Actor::register` never returns the error variant of its
`IOResult<Token>`: whenever the call returns (i.e. the inner token loop
terminates), the result is `Ok` with a token. -/
theorem C9_register_never_fails (a : Actor) (ev_info : EventInfo) (fuel : Nat)
    (res : Except IOErr Nat) (a' : Actor) (tr : List TraceEv)
    (h : Actor.register a ev_info fuel = some (res, a', tr)) :
    ∃ t, res = Except.ok t := by
  rw [Actor.register] at h
  split at h
  · exact absurd h (by simp)
  · rename_i t r1 tr1 heq
    simp only [Option.some.injEq, Prod.mk.injEq] at h
    exact ⟨t, h.1.symm⟩

/-- Witness for C9 at a concrete input: registering on a fresh actor returns
the `Ok` variant. -/
theorem C9_witness : ∃ t, (Except.ok 0 : Except IOErr Nat) = Except.ok t :=
  C9_register_never_fails Actor.new evSampleA 1 (Except.ok 0)
    { registry := { next_token := 1, map := [(0, evSampleA)] } }
    [TraceEv.osRegister 0, TraceEv.mapInsert 0] rfl

/-- A deregister call that returns `Ok(true)` leaves the registry equal to the
original with the token's entry removed and the counter unchanged. -/
theorem deregister_ok_true (a : Actor) (t : Nat) (a' : Actor)
    (tr : List TraceEv)
    (h : Actor.deregister a t = (Except.ok true, a', tr)) :
    a'.registry.map = mapRemove a.registry.map t ∧
    a'.registry.next_token = a.registry.next_token := by
  cases hlk : mapLookup a.registry.map t with
  | none => simp [Actor.deregister, Registry.remove, hlk] at h
  | some v =>
    simp only [Actor.deregister, Registry.remove, hlk] at h
    cases hvd : v.osDeregisterResult with
    | some e =>
      rw [hvd] at h
      simp at h
    | none =>
      rw [hvd] at h
      simp only [Prod.mk.injEq] at h
      rw [← h.2.1]
      exact ⟨rfl, rfl⟩

/-- The concrete actor used by the C2 counterexample and witness: one
registered entry whose OS-level deregister call fails. -/
def actorC2 : Actor :=
  { registry := { next_token := 1, map := [(0, evDeregisterFails)] } }

/-- C2 counterexample: deregistering token 0 on `actorC2` surfaces the
OS-level deregistration error, but the Registry is NOT left as it was before
the call: the entry for token 0 has been removed and is not reinstated, so
the claim's clause that no incomplete state is retained fails at this input. -/
theorem C2_counterexample :
    (Actor.deregister actorC2 0).1 = Except.error { code := 2 } ∧
    (Actor.deregister actorC2 0).2.1.registry ≠ actorC2.registry :=
  ⟨rfl, by decide⟩

/-- C2 (amended): when the OS-level deregistration of a registered token
fails, the failure is surfaced synchronously to the caller, and the resulting
Registry is the original with exactly that entry removed (counter unchanged):
the removal is not rolled back, so the Registry is not restored to its state
before the call. -/
theorem C2_deregister_failure (a : Actor) (t : Nat) (v : EventInfo)
    (e : IOErr) (hv : mapLookup a.registry.map t = some v)
    (he : v.osDeregisterResult = some e) :
    (Actor.deregister a t).1 = Except.error e ∧
    (Actor.deregister a t).2.1.registry.map = mapRemove a.registry.map t ∧
    (Actor.deregister a t).2.1.registry.next_token = a.registry.next_token := by
  simp [Actor.deregister, Registry.remove, hv, he]

/-- Witness for C2 at a concrete input: the failing deregister on `actorC2`
returns the error and leaves the registry with the entry removed. -/
theorem C2_witness :
    (Actor.deregister actorC2 0).1 = Except.error { code := 2 } ∧
    (Actor.deregister actorC2 0).2.1.registry.map =
      mapRemove actorC2.registry.map 0 ∧
    (Actor.deregister actorC2 0).2.1.registry.next_token =
      actorC2.registry.next_token :=
  C2_deregister_failure actorC2 0 evDeregisterFails { code := 2 }
    (by decide) (by decide)

/-- C4: after a successful deregister of token `t` (on a registry whose keys
are distinct, the `HashMap` invariant), a dispatch cycle in which the OS
still reports readiness for `t` silently skips the stale event: no waker is
invoked for it and it is not counted; a cycle whose only reported event is
the stale one returns count 0 with no waker invoked. -/
theorem C4_stale_event_skipped (a : Actor) (t : Nat) (a' : Actor)
    (tr : List TraceEv) (rb wb : Bool) (rest : List OsEvent)
    (hnd : (a.registry.map.map Prod.fst).Nodup)
    (h : Actor.deregister a t = (Except.ok true, a', tr)) :
    dispatchEvents a'.registry (⟨t, rb, wb⟩ :: rest) =
      dispatchEvents a'.registry rest ∧
    Actor.wait_all_events a' (Except.ok [⟨t, rb, wb⟩]) = (Except.ok 0, []) := by
  have hm := deregister_ok_true a t a' tr h
  have hlk : mapLookup a'.registry.map t = none := by
    rw [hm.1]
    exact mapLookup_mapRemove_self _ _ hnd
  constructor
  · simp [dispatchEvents, hlk]
  · simp [Actor.wait_all_events, dispatchEvents, hlk]

/-- Witness for C4 at a concrete input: deregister token 0 then dispatch a
stale read-ready event for it: count 0, no waker invoked. -/
theorem C4_witness :
    dispatchEvents (Actor.mk (Registry.mk 1 [])).registry
      ({ token := 0, readable := true, writable := false } :: []) =
      dispatchEvents (Actor.mk (Registry.mk 1 [])).registry [] ∧
    Actor.wait_all_events (Actor.mk (Registry.mk 1 []))
      (Except.ok [{ token := 0, readable := true, writable := false }]) =
      (Except.ok 0, []) :=
  C4_stale_event_skipped (Actor.mk (Registry.mk 1 [(0, evSampleA)])) 0
    (Actor.mk (Registry.mk 1 []))
    [TraceEv.mapRemove 0, TraceEv.osDeregister 0] true false []
    (by decide) rfl

/-- C5: dispatch of a ready event whose token is registered invokes the read
waker exactly when the event is read-ready and the write waker exactly when
it is write-ready — both exactly once each when both directions are ready —
and increments the event counter exactly once regardless of how many
directions fired. -/
theorem C5_dispatch_directions (r : Registry) (t : Nat) (v : EventInfo)
    (rb wb : Bool) (rest : List OsEvent)
    (h : mapLookup r.map t = some v) :
    dispatchEvents r (⟨t, rb, wb⟩ :: rest) =
      ((dispatchEvents r rest).1 + 1,
        ((if rb then [v.readWaker] else []) ++
          (if wb then [v.writeWaker] else [])) ++ (dispatchEvents r rest).2) ∧
    dispatchEvents r [⟨t, true, true⟩] = (1, [v.readWaker, v.writeWaker]) ∧
    dispatchEvents r [⟨t, true, false⟩] = (1, [v.readWaker]) ∧
    dispatchEvents r [⟨t, false, true⟩] = (1, [v.writeWaker]) ∧
    dispatchEvents r [⟨t, false, false⟩] = (1, []) := by
  refine ⟨?_, ?_, ?_, ?_, ?_⟩ <;> simp [dispatchEvents, h]

/-- Witness for C5 at a concrete input (the spec's scenario): one registered
event, a read-only-ready report for its token: count 1, the read waker
invoked once, the write waker not invoked. -/
theorem C5_witness :
    dispatchEvents (Registry.mk 1 [(0, evSampleA)])
      [{ token := 0, readable := true, writable := false }] =
      (1, [evSampleA.readWaker]) :=
  (C5_dispatch_directions (Registry.mk 1 [(0, evSampleA)]) 0 evSampleA
    true false [] (by decide)).2.2.1

/-- C6: deregister is idempotent: after a deregister of `t` that returned
`true` (on a registry with distinct keys, the `HashMap` invariant), a second
deregister of `t` returns `Ok(false)` without error; deregistering a token
absent from the registry likewise returns `Ok(false)`. -/
theorem C6_deregister_idempotent (a : Actor) (t : Nat) :
    (∀ a' tr, (a.registry.map.map Prod.fst).Nodup →
      Actor.deregister a t = (Except.ok true, a', tr) →
      (Actor.deregister a' t).1 = Except.ok false) ∧
    (mapLookup a.registry.map t = none →
      (Actor.deregister a t).1 = Except.ok false) := by
  constructor
  · intro a' tr hnd h
    have hm := deregister_ok_true a t a' tr h
    have hlk : mapLookup a'.registry.map t = none := by
      rw [hm.1]
      exact mapLookup_mapRemove_self _ _ hnd
    simp [Actor.deregister, Registry.remove, hlk]
  · intro hlk
    simp [Actor.deregister, Registry.remove, hlk]

/-- Witness for C6 at a concrete input: a second deregister of token 0 after
a successful one returns false, and deregistering the never-issued token 5 on
a fresh actor returns false. -/
theorem C6_witness :
    (Actor.deregister (Actor.mk (Registry.mk 1 [])) 0).1 = Except.ok false ∧
    (Actor.deregister Actor.new 5).1 = Except.ok false :=
  ⟨(C6_deregister_idempotent (Actor.mk (Registry.mk 1 [(0, evSampleA)])) 0).1
      (Actor.mk (Registry.mk 1 []))
      [TraceEv.mapRemove 0, TraceEv.osDeregister 0] (by decide) rfl,
    (C6_deregister_idempotent Actor.new 5).2 (by decide)⟩

/-- C8: transactional ordering with respect to the OS primitive: in every
terminating register call the trace places the OS-level register strictly
before the map insertion, and in every deregister call of a present token the
trace places the map removal strictly before the OS-level deregister. -/
theorem C8_transactional_ordering :
    (∀ fuel r ev_info t r' tr,
        Registry.registerLoop fuel r ev_info = some (t, r', tr) →
        ∃ i j : Nat, i < j ∧ tr[i]? = some (TraceEv.osRegister t) ∧
          tr[j]? = some (TraceEv.mapInsert t)) ∧
    (∀ a t res a' tr v, mapLookup a.registry.map t = some v →
        Actor.deregister a t = (res, a', tr) →
        ∃ i j : Nat, i < j ∧ tr[i]? = some (TraceEv.mapRemove t) ∧
          tr[j]? = some (TraceEv.osDeregister t)) := by
  constructor
  · intro fuel r ev_info t r' tr h
    obtain ⟨-, -, -, htr, -, -⟩ := registerLoop_spec fuel r ev_info t r' tr h
    subst htr
    exact ⟨0, 1, by decide, rfl, rfl⟩
  · intro a t res a' tr v hv h
    simp only [Actor.deregister, Registry.remove, hv] at h
    cases hvd : v.osDeregisterResult with
    | some e =>
      rw [hvd] at h
      simp only [Prod.mk.injEq] at h
      rw [← h.2.2]
      exact ⟨0, 1, by decide, rfl, rfl⟩
    | none =>
      rw [hvd] at h
      simp only [Prod.mk.injEq] at h
      rw [← h.2.2]
      exact ⟨0, 1, by decide, rfl, rfl⟩

/-- Witness for C8 at a concrete input: the trace of a register call on a
fresh registry orders the OS register before the insertion. -/
theorem C8_witness :
    ∃ i j : Nat, i < j ∧
      ([TraceEv.osRegister 0, TraceEv.mapInsert 0][i]? =
        some (TraceEv.osRegister 0)) ∧
      ([TraceEv.osRegister 0, TraceEv.mapInsert 0][j]? =
        some (TraceEv.mapInsert 0)) :=
  C8_transactional_ordering.1 1 Registry.new evSampleA 0
    (Registry.mk 1 [(0, evSampleA)])
    [TraceEv.osRegister 0, TraceEv.mapInsert 0] (by decide)

/-- C10: `Registry::remove` has no effect beyond the removed entry: the
next-token counter is unchanged and the lookup of every key other than the
removed token is unchanged, whether or not the token was present. -/
theorem C10_remove_frame (r : Registry) (t : Nat) :
    (Registry.remove r t).2.next_token = r.next_token ∧
    ∀ k, k ≠ t →
      mapLookup (Registry.remove r t).2.map k = mapLookup r.map k :=
  ⟨rfl, fun k hk => mapLookup_mapRemove_ne r.map t k hk⟩

/-- Witness for C10 at a concrete input: removing token 0 from a two-entry
registry keeps the counter at 7 and the entry for token 1 intact. -/
theorem C10_witness :
    (Registry.remove (Registry.mk 7 [(0, evSampleA), (1, evSampleB)])
      0).2.next_token = 7 ∧
    mapLookup (Registry.remove
        (Registry.mk 7 [(0, evSampleA), (1, evSampleB)]) 0).2.map 1 =
      mapLookup (Registry.mk 7 [(0, evSampleA), (1, evSampleB)]).map 1 :=
  ⟨(C10_remove_frame (Registry.mk 7 [(0, evSampleA), (1, evSampleB)]) 0).1,
    (C10_remove_frame (Registry.mk 7 [(0, evSampleA), (1, evSampleB)]) 0).2 1
      (by decide)⟩
